import Mathlib

/-!
Verification of the `uhd_single_usrp_source` interface
(`src/gr-uhd/lib/uhd_single_usrp_source.h`).

The header declares an abstract streaming source block for a UHD
single-USRP device.  Every operation except the bare-frequency
`set_center_freq` wrapper is pure virtual, so the wrapper and the
declared signatures are embedded directly from the header, while the
device behaviour behind the virtual surface is modelled from the
specification's words.
-/

namespace UhdSingleUsrpSource

/-- Frequencies, gains, rates and times are embedded as rationals
(the C++ `double` values of interest are exact). -/
abbrev Freq := ℚ

/-- A tune request as in `uhd::tune_request_t`: a target frequency and
the automatic/manual policy flags for the RF and DSP stages. -/
structure TuneRequest where
  target_freq : Freq
  rf_freq_policy_auto : Bool
  dsp_freq_policy_auto : Bool
deriving DecidableEq, Repr

/-- The single-argument `uhd::tune_request_t(target_freq)` constructor:
target set to the given frequency, both policies automatic. -/
def tune_request_t (freq : Freq) : TuneRequest :=
  { target_freq := freq, rf_freq_policy_auto := true, dsp_freq_policy_auto := true }

/-- The zero-argument `uhd::tune_request_t()` constructor: target zero,
both policies automatic. -/
def tune_request_default : TuneRequest :=
  { target_freq := 0, rf_freq_policy_auto := true, dsp_freq_policy_auto := true }

/-- The spec's phrase for the argument of the primary overload in the
wrapper contract: a default-constructed tune request wrapping `freq`. -/
def default_request_wrapping (freq : Freq) : TuneRequest :=
  { tune_request_default with target_freq := freq }

/-- A tune result as in `uhd::tune_result_t`: the actually achieved
frequencies reported back by the device. -/
structure TuneResult where
  actual_target_freq : Freq
  actual_inter_freq : Freq
  actual_rf_freq : Freq
deriving DecidableEq, Repr

/-- The virtual surface of the class relevant to the inline wrapper:
an arbitrary implementation of the pure-virtual request-based
`set_center_freq(tune_request, chan)`. -/
structure UsrpSourceImpl where
  set_center_freq_req : TuneRequest → Nat → TuneResult

/-- The inline bare-frequency overload exactly as written in the header:
`return set_center_freq(uhd::tune_request_t(freq), chan);`. -/
def set_center_freq_wrap (impl : UsrpSourceImpl) (freq : Freq) (chan : Nat) : TuneResult :=
  impl.set_center_freq_req (tune_request_t freq) chan

/-- A gain range as in `uhd::gain_range_t`: minimum and maximum gain in
dB.  The data-model invariant requires `lo ≤ hi`. -/
structure GainRange where
  lo : ℚ
  hi : ℚ
deriving DecidableEq, Repr

/-- The error kind raised by configuration mistakes (bad antenna name,
bad subdevice spec, bad channel index). -/
inductive UhdError where
  | configurationError
deriving DecidableEq, Repr

/-- Modelled from the spec: the immutable capabilities of the device
behind the pure-virtual surface (the concrete implementation is not in
the repository).  Per channel: the advertised gain range, the list of
valid antenna names and the frequency resolution (step) of the
synthesizer; globally: the finite set of sample rates the hardware can
generate. -/
structure DeviceCaps where
  num_channels : Nat
  gain_range : Nat → GainRange
  antennas : Nat → List String
  freq_step : ℚ
  samp_rates : List ℚ

/-- Modelled from the spec: the mutable per-channel and global state of
the device (current gain, antenna, centre frequency per channel; the
actually configured sample rate). -/
structure DeviceState where
  gain : Nat → ℚ
  antenna : Nat → String
  center_freq : Nat → Freq
  samp_rate : ℚ

/-- Clip a requested value into a gain range: `max lo (min hi g)`. -/
def clip (r : GainRange) (g : ℚ) : ℚ := max r.lo (min r.hi g)

/-- `get_gain_range(chan)`: the advertised gain range of a channel. -/
def get_gain_range (caps : DeviceCaps) (chan : Nat) : GainRange :=
  caps.gain_range chan

/-- Modelled from the spec: `set_gain(gain, chan)` — the device clips
the requested gain to the advertised range and stores the clipped
value (the concrete implementation is not in the repository). -/
def set_gain (caps : DeviceCaps) (gain : ℚ) (chan : Nat) (s : DeviceState) : DeviceState :=
  { s with gain := fun c => if c = chan then clip (caps.gain_range chan) gain else s.gain c }

/-- `get_gain(chan)`: the actual gain setting of a channel. -/
def get_gain (chan : Nat) (s : DeviceState) : ℚ := s.gain chan

/-- `get_antennas(chan)`: the list of possible antenna names. -/
def get_antennas (caps : DeviceCaps) (chan : Nat) : List String :=
  caps.antennas chan

/-- Modelled from the spec: `set_antenna(ant, chan)` — a name present in
`get_antennas(chan)` is stored; a name not present fails with
`ConfigurationError` and leaves the state unchanged (the concrete
implementation is not in the repository). -/
def set_antenna (caps : DeviceCaps) (ant : String) (chan : Nat) (s : DeviceState) :
    DeviceState × Option UhdError :=
  if ant ∈ caps.antennas chan then
    ({ s with antenna := fun c => if c = chan then ant else s.antenna c }, none)
  else
    (s, some UhdError.configurationError)

/-- `get_antenna(chan)`: the antenna currently in use on a channel. -/
def get_antenna (chan : Nat) (s : DeviceState) : String := s.antenna chan

/-- Quantize a frequency to the device's synthesizer grid: the nearest
integer multiple of the frequency step. -/
def quantize (step : ℚ) (f : Freq) : Freq := (round (f / step) : ℤ) * step

/-- Modelled from the spec: the request-based
`set_center_freq(tune_request, chan)` — the device tunes as close as the
synthesizer grid allows to the request's target and returns a tune
result reporting the actually achieved frequencies (the concrete
implementation is not in the repository). -/
def set_center_freq (caps : DeviceCaps) (req : TuneRequest) (chan : Nat) (s : DeviceState) :
    TuneResult × DeviceState :=
  let achieved := quantize caps.freq_step req.target_freq
  (⟨achieved, 0, achieved⟩,
   { s with center_freq := fun c => if c = chan then achieved else s.center_freq c })

/-- A frequency the hardware could realize: an exact multiple of the
synthesizer's frequency step. -/
def realizable (caps : DeviceCaps) (f : Freq) : Prop :=
  ∃ k : ℤ, f = (k : ℚ) * caps.freq_step

/-- The achievable sample rate closest to a requested rate, over the
device's finite rate list (first wins on ties). -/
def closest_rate (r : ℚ) : List ℚ → ℚ
  | [] => 0
  | [a] => a
  | a :: b :: rest =>
    let c := closest_rate r (b :: rest)
    if |a - r| ≤ |c - r| then a else c

/-- Modelled from the spec: `set_samp_rate(rate)` — the device
configures the closest rate it can generate (the concrete
implementation is not in the repository). -/
def set_samp_rate (caps : DeviceCaps) (rate : ℚ) (s : DeviceState) : DeviceState :=
  { s with samp_rate := closest_rate rate caps.samp_rates }

/-- `get_samp_rate()`: reads the actual sample rate; as a getter it
returns the value together with the (unchanged) device state. -/
def get_samp_rate (s : DeviceState) : ℚ × DeviceState := (s.samp_rate, s)

/-- Concrete capabilities used to instantiate the theorems: one
channel, gain range 0..30 dB, two antennas, quarter-Hz tuning step,
three achievable sample rates. -/
def sampleCaps : DeviceCaps where
  num_channels := 1
  gain_range := fun _ => ⟨0, 30⟩
  antennas := fun _ => ["TX/RX", "RX2"]
  freq_step := 1/4
  samp_rates := [250000, 1000000, 4000000]

/-- A valid antenna name of the sample device, used in witnesses. -/
def rx2Antenna : String := "RX2"

/-- An antenna name the sample device does not offer, used in
witnesses. -/
def bogusAntenna : String := "J1"

/-- A concrete device state used to instantiate the theorems. -/
def sampleState : DeviceState where
  gain := fun _ => 0
  antenna := fun _ => "TX/RX"
  center_freq := fun _ => 0
  samp_rate := 250000

theorem closest_rate_mem (r : ℚ) :
    ∀ rates : List ℚ, rates ≠ [] → closest_rate r rates ∈ rates
  | [], h => absurd rfl h
  | [a], _ => by simp [closest_rate]
  | a :: b :: rest, _ => by
    have ih := closest_rate_mem r (b :: rest) (by simp)
    show (if |a - r| ≤ |closest_rate r (b :: rest) - r| then a
          else closest_rate r (b :: rest)) ∈ a :: b :: rest
    by_cases hc : |a - r| ≤ |closest_rate r (b :: rest) - r|
    · rw [if_pos hc]; exact List.mem_cons_self a _
    · rw [if_neg hc]; exact List.mem_cons_of_mem a ih

theorem closest_rate_le (r : ℚ) :
    ∀ rates : List ℚ, ∀ q ∈ rates, |closest_rate r rates - r| ≤ |q - r|
  | [], q, hq => absurd hq (List.not_mem_nil q)
  | [a], q, hq => by
    rcases List.mem_singleton.mp hq with rfl
    simp [closest_rate]
  | a :: b :: rest, q, hq => by
    have ih := closest_rate_le r (b :: rest)
    show |(if |a - r| ≤ |closest_rate r (b :: rest) - r| then a
           else closest_rate r (b :: rest)) - r| ≤ |q - r|
    by_cases hc : |a - r| ≤ |closest_rate r (b :: rest) - r|
    · rw [if_pos hc]
      rcases List.mem_cons.mp hq with rfl | hq2
      · exact le_refl _
      · exact le_trans hc (ih q hq2)
    · rw [if_neg hc]
      rcases List.mem_cons.mp hq with rfl | hq2
      · exact le_of_lt (lt_of_not_le hc)
      · exact ih q hq2

/-- Modelled from the spec: the device's free-running time base behind
the pure-virtual time surface (the concrete implementation is not in
the repository).  `base` is the value latched into the time register at
hardware instant `anchor`; the register then counts up with real time.
`pending_pps` holds a time scheduled to latch at the next PPS edge. -/
structure TimeState where
  base : ℚ
  anchor : ℚ
  pending_pps : Option ℚ
deriving DecidableEq, Repr

/-- `get_time_now()` sampled at hardware instant `instant`: the latched
value plus the time elapsed since the latch. -/
def get_time_now (s : TimeState) (instant : ℚ) : ℚ := s.base + (instant - s.anchor)

/-- `set_time_now(t)` at hardware instant `instant`: latch immediately. -/
def set_time_now (t : ℚ) (instant : ℚ) (s : TimeState) : TimeState :=
  { base := t, anchor := instant, pending_pps := s.pending_pps }

/-- Modelled from the spec: `set_time_next_pps(t)` — schedule the time
register to latch to `t` at the next pulse-per-second edge (the
concrete implementation is not in the repository). -/
def set_time_next_pps (t : ℚ) (s : TimeState) : TimeState :=
  { s with pending_pps := some t }

/-- The PPS edge arriving at hardware instant `instant`: a pending
scheduled time latches into the register; otherwise nothing happens. -/
def pps_edge (instant : ℚ) (s : TimeState) : TimeState :=
  match s.pending_pps with
  | some t => { base := t, anchor := instant, pending_pps := none }
  | none => s

/-- Modelled from the spec: the streaming state behind `work` (the
concrete implementation is not in the repository).  `available` is the
number of samples the bounded wait for hardware data yielded;
`pending_tag` records that the next block must carry a start-time tag
(start-up, timed start, or detected discontinuity). -/
structure StreamState where
  available : Nat
  pending_tag : Bool
deriving DecidableEq, Repr

/-- Modelled from the spec: `work(buffer, requested)` — produce
`min available requested` samples (0 when the bounded wait yielded
nothing), report whether the block carries a start-time tag, and clear
the pending-tag flag. -/
def work (requested : Nat) (s : StreamState) : Nat × Bool × StreamState :=
  let produced := min s.available requested
  (produced, s.pending_tag, ⟨s.available - produced, false⟩)

/-- The events that drive the start-time-tag bookkeeping: a `work`
invocation that returns a block, an explicit timed-start request, and a
detected overflow/underflow discontinuity. -/
inductive StreamEv where
  | workCall
  | timedStart
  | overflow
deriving DecidableEq, Repr

/-- Modelled from the spec: how one event updates the pending-tag flag
— a returned block consumes the tag, a timed start or a discontinuity
arms it. -/
def step_pending (pending : Bool) (e : StreamEv) : Bool :=
  match e with
  | StreamEv.workCall => false
  | StreamEv.timedStart => true
  | StreamEv.overflow => true

/-- The pending-tag flag after a history of events, starting from
construction (where the flag is armed: the first block is tagged). -/
def pendingAfter (es : List StreamEv) : Bool := es.foldl step_pending true

/-- Whether the block returned by a `work` call that follows history
`es` carries a start-time tag. -/
def tag_emitted (es : List StreamEv) : Bool := pendingAfter es

/-- A declaration of the header, reduced to the data the signature
claim is about: the operation's name and the declared default of its
channel parameter (`none` when the caller must supply it). -/
structure OpDecl where
  op_name : String
  chan_default : Option Nat
deriving DecidableEq, Repr

/-- The channel-taking operations declared in
`uhd_single_usrp_source.h`, with the channel-parameter default
transcribed from each declaration. -/
def header_chan_ops : List OpDecl :=
  [⟨"set_center_freq(tune_request,chan)", none⟩,
   ⟨"set_center_freq(freq,chan)", none⟩,
   ⟨"get_freq_range", some 0⟩,
   ⟨"set_gain", some 0⟩,
   ⟨"get_gain", some 0⟩,
   ⟨"get_gain_range", some 0⟩,
   ⟨"set_antenna", some 0⟩,
   ⟨"get_antenna", some 0⟩,
   ⟨"get_antennas", some 0⟩,
   ⟨"set_bandwidth", some 0⟩]

/-- The default of the `num_channels` parameter of the factory function
`uhd_make_single_usrp_source`, transcribed from its declaration. -/
def uhd_make_num_channels_default : Option Nat := some 1

end UhdSingleUsrpSource

namespace UhdSingleUsrpSource

/-- Claim C1: for every implementation of the request-based overload,
every frequency and every channel index, the bare-frequency wrapper
`set_center_freq(freq, chan)` returns exactly the `TuneResult` of the
request-based overload applied to a default-constructed tune request
wrapping `freq`; the wrapper has no independent behaviour. -/
theorem set_center_freq_wrap_eq_primary
    (impl : UsrpSourceImpl) (freq : Freq) (chan : Nat) :
    set_center_freq_wrap impl freq chan
      = impl.set_center_freq_req (default_request_wrapping freq) chan := by
  unfold set_center_freq_wrap default_request_wrapping tune_request_t tune_request_default
  rfl

/-- Claim C2: for every valid channel index and every requested gain,
after `set_gain(g, chan)` the value returned by `get_gain(chan)` lies
within `get_gain_range(chan)` — the device clips the request and the
getter reflects the clipped value. -/
theorem get_gain_after_set_gain_in_range
    (caps : DeviceCaps) (s : DeviceState) (g : ℚ) (chan : Nat)
    (hchan : chan < caps.num_channels)
    (hr : (get_gain_range caps chan).lo ≤ (get_gain_range caps chan).hi) :
    (get_gain_range caps chan).lo ≤ get_gain chan (set_gain caps g chan s) ∧
    get_gain chan (set_gain caps g chan s) ≤ (get_gain_range caps chan).hi := by
  have hg : get_gain chan (set_gain caps g chan s) = clip (caps.gain_range chan) g := by
    simp [get_gain, set_gain]
  rw [hg]
  constructor
  · exact le_max_left _ _
  · exact max_le hr (min_le_left _ _)

/-- Witness for C2: a gain request of 100 dB on channel 0 of the sample
device ends up inside the advertised range 0..30 dB. -/
theorem get_gain_after_set_gain_in_range_witness :
    0 < sampleCaps.num_channels ∧
    (get_gain_range sampleCaps 0).lo ≤ (get_gain_range sampleCaps 0).hi ∧
    ((get_gain_range sampleCaps 0).lo ≤ get_gain 0 (set_gain sampleCaps 100 0 sampleState) ∧
     get_gain 0 (set_gain sampleCaps 100 0 sampleState) ≤ (get_gain_range sampleCaps 0).hi) :=
  ⟨by decide, by decide,
   get_gain_after_set_gain_in_range sampleCaps sampleState 100 0 (by decide) (by decide)⟩

/-- Claim C3: for every valid channel index and every antenna name
drawn from `get_antennas(chan)`, `set_antenna(name, chan)` succeeds and
a subsequent `get_antenna(chan)` returns exactly that name. -/
theorem get_antenna_after_set_antenna
    (caps : DeviceCaps) (s : DeviceState) (ant : String) (chan : Nat)
    (hchan : chan < caps.num_channels)
    (hant : ant ∈ get_antennas caps chan) :
    (set_antenna caps ant chan s).2 = none ∧
    get_antenna chan (set_antenna caps ant chan s).1 = ant := by
  have hmem : ant ∈ caps.antennas chan := hant
  constructor
  · simp [set_antenna, hmem]
  · simp [set_antenna, hmem, get_antenna]

/-- Witness for C3: selecting the listed antenna "RX2" on channel 0 of
the sample device succeeds and is read back verbatim. -/
theorem get_antenna_after_set_antenna_witness :
    0 < sampleCaps.num_channels ∧
    rx2Antenna ∈ get_antennas sampleCaps 0 ∧
    ((set_antenna sampleCaps rx2Antenna 0 sampleState).2 = none ∧
     get_antenna 0 (set_antenna sampleCaps rx2Antenna 0 sampleState).1 = rx2Antenna) :=
  ⟨by decide, by decide,
   get_antenna_after_set_antenna sampleCaps sampleState rx2Antenna 0 (by decide)
     (by decide)⟩

/-- Claim C4: for every valid channel index and every antenna name
not present in `get_antennas(chan)`, `set_antenna(name, chan)` fails
with `ConfigurationError` and the channel's antenna is unchanged
(atomic failure). -/
theorem set_antenna_bad_name_fails_atomically
    (caps : DeviceCaps) (s : DeviceState) (ant : String) (chan : Nat)
    (hchan : chan < caps.num_channels)
    (hant : ant ∉ get_antennas caps chan) :
    (set_antenna caps ant chan s).2 = some UhdError.configurationError ∧
    get_antenna chan (set_antenna caps ant chan s).1 = get_antenna chan s := by
  have hmem : ant ∉ caps.antennas chan := hant
  constructor
  · simp [set_antenna, hmem]
  · simp [set_antenna, hmem]

/-- Witness for C4: selecting the unlisted antenna "J1" on channel 0 of
the sample device fails with `ConfigurationError` and leaves the prior
antenna "TX/RX" in place. -/
theorem set_antenna_bad_name_fails_atomically_witness :
    0 < sampleCaps.num_channels ∧
    bogusAntenna ∉ get_antennas sampleCaps 0 ∧
    ((set_antenna sampleCaps bogusAntenna 0 sampleState).2 = some UhdError.configurationError ∧
     get_antenna 0 (set_antenna sampleCaps bogusAntenna 0 sampleState).1
       = get_antenna 0 sampleState) :=
  ⟨by decide, by decide,
   set_antenna_bad_name_fails_atomically sampleCaps sampleState bogusAntenna 0 (by decide)
     (by decide)⟩

/-- Claim C5: for every tune request and valid channel index,
`set_center_freq(request, chan)` returns a `TuneResult` reporting a
frequency the hardware could realize (on the synthesizer grid), within
the device's frequency resolution of the request's target — but not
necessarily equal to the target. -/
theorem set_center_freq_reports_achieved
    (caps : DeviceCaps) (req : TuneRequest) (chan : Nat) (s : DeviceState)
    (hchan : chan < caps.num_channels)
    (hstep : 0 < caps.freq_step) :
    realizable caps (set_center_freq caps req chan s).1.actual_rf_freq ∧
    |(set_center_freq caps req chan s).1.actual_rf_freq - req.target_freq|
      ≤ caps.freq_step / 2 := by
  have hne : caps.freq_step ≠ 0 := ne_of_gt hstep
  have hrf : (set_center_freq caps req chan s).1.actual_rf_freq
      = (round (req.target_freq / caps.freq_step) : ℤ) * caps.freq_step := by
    simp [set_center_freq, quantize]
  constructor
  · exact ⟨round (req.target_freq / caps.freq_step), hrf⟩
  · rw [hrf]
    have hx : req.target_freq = req.target_freq / caps.freq_step * caps.freq_step :=
      (div_mul_cancel₀ _ hne).symm
    calc |(round (req.target_freq / caps.freq_step) : ℚ) * caps.freq_step - req.target_freq|
        = |((round (req.target_freq / caps.freq_step) : ℚ)
            - req.target_freq / caps.freq_step) * caps.freq_step| := by
          rw [sub_mul]; rw [← hx]
      _ = |(round (req.target_freq / caps.freq_step) : ℚ)
            - req.target_freq / caps.freq_step| * |caps.freq_step| := abs_mul _ _
      _ ≤ (1 / 2) * |caps.freq_step| := by
          apply mul_le_mul_of_nonneg_right _ (abs_nonneg _)
          rw [abs_sub_comm]
          exact abs_sub_round _
      _ = caps.freq_step / 2 := by
          rw [abs_of_pos hstep]; ring

/-- Witness for C5: tuning the sample device (quarter-Hz step) to
100.1 Hz yields an achieved frequency on the grid within 1/8 Hz of the
target. -/
theorem set_center_freq_reports_achieved_witness :
    0 < sampleCaps.num_channels ∧
    (0 : ℚ) < sampleCaps.freq_step ∧
    (realizable sampleCaps
       (set_center_freq sampleCaps (tune_request_t (1001/10)) 0 sampleState).1.actual_rf_freq ∧
     |(set_center_freq sampleCaps (tune_request_t (1001/10)) 0 sampleState).1.actual_rf_freq
        - (tune_request_t (1001/10)).target_freq| ≤ sampleCaps.freq_step / 2) :=
  ⟨by decide, by norm_num [sampleCaps],
   set_center_freq_reports_achieved sampleCaps (tune_request_t (1001/10)) 0 sampleState
     (by decide) (by norm_num [sampleCaps])⟩

/-- Claim C8: after a single `set_samp_rate(r)`, `get_samp_rate()`
returns the achievable rate closest to `r` (possibly different from
`r`), and a repeated `get_samp_rate()` with no intervening setter
returns the same value again. -/
theorem get_samp_rate_after_set_samp_rate
    (caps : DeviceCaps) (s : DeviceState) (r : ℚ)
    (h : caps.samp_rates ≠ []) :
    (get_samp_rate (set_samp_rate caps r s)).1 ∈ caps.samp_rates ∧
    (∀ q ∈ caps.samp_rates,
      |(get_samp_rate (set_samp_rate caps r s)).1 - r| ≤ |q - r|) ∧
    (get_samp_rate (get_samp_rate (set_samp_rate caps r s)).2).1
      = (get_samp_rate (set_samp_rate caps r s)).1 := by
  refine ⟨?_, ?_, rfl⟩
  · exact closest_rate_mem r caps.samp_rates h
  · intro q hq
    exact closest_rate_le r caps.samp_rates q hq

/-- Witness for C8: requesting 900000 Sps on the sample device (rates
250000, 1000000, 4000000) configures 1000000 Sps, the closest rate,
stable across a repeated read. -/
theorem get_samp_rate_after_set_samp_rate_witness :
    sampleCaps.samp_rates ≠ [] ∧
    ((get_samp_rate (set_samp_rate sampleCaps 900000 sampleState)).1 ∈ sampleCaps.samp_rates ∧
     (∀ q ∈ sampleCaps.samp_rates,
       |(get_samp_rate (set_samp_rate sampleCaps 900000 sampleState)).1 - 900000| ≤ |q - 900000|) ∧
     (get_samp_rate (get_samp_rate (set_samp_rate sampleCaps 900000 sampleState)).2).1
       = (get_samp_rate (set_samp_rate sampleCaps 900000 sampleState)).1) :=
  ⟨by decide,
   get_samp_rate_after_set_samp_rate sampleCaps sampleState 900000 (by decide)⟩

/-- Claim C9: after `set_time_next_pps(t)` and the next PPS edge, every
`get_time_now()` sampled at or after the edge returns a value `≥ t`,
and successive reads (with no intervening time reset) are strictly
increasing. -/
theorem get_time_now_after_set_time_next_pps
    (s : TimeState) (t edge i1 i2 : ℚ)
    (h1 : edge ≤ i1) (h2 : i1 < i2) :
    t ≤ get_time_now (pps_edge edge (set_time_next_pps t s)) i1 ∧
    get_time_now (pps_edge edge (set_time_next_pps t s)) i1
      < get_time_now (pps_edge edge (set_time_next_pps t s)) i2 := by
  simp only [set_time_next_pps, pps_edge, get_time_now]
  constructor <;> linarith

/-- Witness for C9: scheduling time 10 at the PPS edge at instant 5,
then reading at instants 6 and 7, yields values 11 < 12, both `≥ 10`. -/
theorem get_time_now_after_set_time_next_pps_witness :
    (5 : ℚ) ≤ 6 ∧ (6 : ℚ) < 7 ∧
    ((10 : ℚ) ≤ get_time_now (pps_edge 5 (set_time_next_pps 10 ⟨0, 0, none⟩)) 6 ∧
     get_time_now (pps_edge 5 (set_time_next_pps 10 ⟨0, 0, none⟩)) 6
       < get_time_now (pps_edge 5 (set_time_next_pps 10 ⟨0, 0, none⟩)) 7) :=
  ⟨by norm_num, by norm_num,
   get_time_now_after_set_time_next_pps ⟨0, 0, none⟩ 10 5 6 7 (by norm_num) (by norm_num)⟩

/-- Claim C6: every `work` invocation with requested count `n` produces
a count that is at most `n` (non-negativity is carried by the type),
and produces 0 when the bounded wait yielded no samples. -/
theorem work_produced_le_requested (requested : Nat) (s : StreamState) :
    (work requested s).1 ≤ requested ∧
    (s.available = 0 → (work requested s).1 = 0) := by
  constructor
  · exact min_le_right _ _
  · intro h
    simp [work, h]

/-- Witness for C6: a `work` call requesting 1024 samples with nothing
available produces 0, which is at most 1024. -/
theorem work_produced_le_requested_witness :
    (work 1024 ⟨0, true⟩).1 ≤ 1024 ∧ (work 1024 (⟨0, true⟩ : StreamState)).1 = 0 :=
  ⟨(work_produced_le_requested 1024 ⟨0, true⟩).1,
   (work_produced_le_requested 1024 ⟨0, true⟩).2 rfl⟩

theorem getLastConcat (bs : List StreamEv) (x : StreamEv)
    (h : bs.length < (bs ++ [x]).length) :
    (bs ++ [x]).get ⟨bs.length, h⟩ = x := by
  induction bs with
  | nil => rfl
  | cons b bs ih => exact ih (by simp)

theorem pendingAfter_concat (bs : List StreamEv) (e : StreamEv) :
    pendingAfter (bs ++ [e]) = step_pending (pendingAfter bs) e := by
  simp [pendingAfter, List.foldl_append]

/-- Claim C7: the very first block after construction carries a
start-time tag; and in general a block carries a start-time tag if and
only if it is the first block after start-up (no prior `work` call at
all) or the first block after a timed start or a detected
overflow/underflow discontinuity (no `work` call since that event). -/
theorem tag_iff_first_after_discontinuity :
    tag_emitted ([] : List StreamEv) = true ∧
    ∀ es : List StreamEv,
      (tag_emitted es = true ↔
        (∀ e ∈ es, e ≠ StreamEv.workCall) ∨
        ∃ j, ∃ hj : j < es.length,
          ((es.get ⟨j, hj⟩ = StreamEv.timedStart ∨ es.get ⟨j, hj⟩ = StreamEv.overflow) ∧
           ∀ k, ∀ hk : k < es.length, j < k → es.get ⟨k, hk⟩ ≠ StreamEv.workCall)) := by
  refine ⟨rfl, fun es => ?_⟩
  rcases List.eq_nil_or_concat es with rfl | ⟨bs, e, rfl⟩
  · simp [tag_emitted, pendingAfter]
  · rw [List.concat_eq_append]
    have hpend : tag_emitted (bs ++ [e]) = step_pending (pendingAfter bs) e :=
      pendingAfter_concat bs e
    cases e with
    | workCall =>
      rw [hpend]
      simp only [step_pending, Bool.false_eq_true, false_iff]
      intro hor
      rcases hor with hall | ⟨j, hj, hje, hnow⟩
      · exact hall StreamEv.workCall (by simp) rfl
      · have hjlt : j < bs.length + 1 := by simpa using hj
        by_cases hjb : j < bs.length
        · exact hnow bs.length (by simp) hjb (getLastConcat bs _ (by simp))
        · have hjeq : j = bs.length := by omega
          subst hjeq
          rw [getLastConcat bs _ hj] at hje
          rcases hje with hje | hje <;> exact StreamEv.noConfusion hje
    | timedStart =>
      rw [hpend]
      simp only [step_pending, true_iff]
      right
      refine ⟨bs.length, by simp, Or.inl (getLastConcat bs _ (by simp)), ?_⟩
      intro k hk hlt
      have : k < bs.length + 1 := by simpa using hk
      omega
    | overflow =>
      rw [hpend]
      simp only [step_pending, true_iff]
      right
      refine ⟨bs.length, by simp, Or.inr (getLastConcat bs _ (by simp)), ?_⟩
      intro k hk hlt
      have : k < bs.length + 1 := by simpa using hk
      omega

/-- Claim C10: in the header, every channel-taking operation except the
two `set_center_freq` overloads declares a channel default of 0, both
`set_center_freq` overloads require the channel explicitly, and the
factory function defaults the channel count to 1. -/
theorem header_chan_defaults :
    (∀ op ∈ header_chan_ops,
       op.op_name ≠ "set_center_freq(tune_request,chan)" →
       op.op_name ≠ "set_center_freq(freq,chan)" →
       op.chan_default = some 0) ∧
    (∀ op ∈ header_chan_ops,
       (op.op_name = "set_center_freq(tune_request,chan)" ∨
        op.op_name = "set_center_freq(freq,chan)") →
       op.chan_default = none) ∧
    uhd_make_num_channels_default = some 1 := by
  decide

end UhdSingleUsrpSource
